import Mathlib

/-!
Verification development for the VeuPapa voice-amplification assistant.

The repository holds two revisions of the turn coordinator:
the primary `src/App.tsx` (modelled in namespace `AppMain`) and an
alternative revision `src/unnamed/part_000` (modelled in namespace
`AppAlt`).  `src/unnamed/part_001` is the shared `types.ts` and
`src/services/geminiService.ts` is the correction/synthesis service.

All asynchronous handlers are embedded as explicit state-passing
functions, cut at their `await` points; external network calls are
represented by explicit outcome values passed in as parameters.
-/

namespace VeuPapa

/-- Embedding of `AppStatus` from `types.ts` (src/unnamed/part_001). -/
inductive AppStatus where
  | IDLE
  | LISTENING
  | PROCESSING
  | SPEAKING
  | ERROR
deriving DecidableEq, Repr

/-- Embedding of `TranscriptionResult` from `types.ts`: the Turn record with
original text, corrected text and a creation timestamp. -/
structure TranscriptionResult where
  original : String
  corrected : String
  timestamp : Nat
deriving DecidableEq, Repr

/-- Model of the JavaScript `String.prototype.trim` used throughout the
source: it removes leading and trailing whitespace characters. -/
def jsTrim (s : String) : String :=
  String.mk (((s.data.dropWhile Char.isWhitespace).reverse.dropWhile
    Char.isWhitespace).reverse)

/-- Outcome of the external Gemini correction call inside
`correctTranscription` (src/services/geminiService.ts): the call either
throws (network error, timeout) or returns a response text. -/
inductive CallResult where
  | throws
  | returns (response : String)
deriving DecidableEq, Repr

/-- Embedding of `correctTranscription` from src/services/geminiService.ts.
The source returns `text` when the input is empty or shorter than 3
characters, catches every exception from the model call and returns `text`,
and falls back to `text` when the trimmed response is empty
(`result.response.text().trim() || text`). -/
def correctTranscription (call : CallResult) (text : String) : String :=
  if text = "" ∨ text.length < 3 then text
  else
    match call with
    | CallResult.throws => text
    | CallResult.returns r => if jsTrim r = "" then text else jsTrim r

/-- Outcome of the external Gemini TTS call inside `synthesizeSpeech`
(src/services/geminiService.ts): the call throws, or returns the optional
base64 audio field of the response. -/
inductive SynthOutcome where
  | sthrows
  | sreturns (audio : Option String)
deriving DecidableEq, Repr

/-- Embedding of `synthesizeSpeech` from src/services/geminiService.ts: all
exceptions are caught and become `undefined` (here `none`); otherwise the
optional `inlineData.data` field is returned as is. -/
def synthesizeSpeech : SynthOutcome → Option String
  | SynthOutcome.sthrows => none
  | SynthOutcome.sreturns a => a

/-- Imperative actions issued against the recognition capability handle,
recorded in order so that statements about action ordering (detach before
abort) can be made. -/
inductive MicAction where
  | detachOnend
  | abortRec
  | startRec
deriving DecidableEq, Repr

namespace AppMain

/-- Coordinator state of src/App.tsx at event-handler granularity.  `status`
is the React status state together with its continuously synchronised live
mirror `statusRef` (the `useEffect` keeps them equal at every event
delivery point); `guard` is `isProcessingRef.current`; `recRunning` records
whether the recognition capability is actively listening; `onendAttached`
records whether the `onend` callback is attached to the recognition handle;
`lastTranscription` is the current Turn. -/
structure MainSt where
  status : AppStatus
  guard : Bool
  recRunning : Bool
  onendAttached : Bool
  lastTranscription : Option TranscriptionResult
deriving DecidableEq, Repr

/-- Handler `recognition.onstart` of src/App.tsx: sets status LISTENING and
clears the processing guard. -/
def onstart (s : MainSt) : MainSt :=
  { s with status := AppStatus.LISTENING, guard := false }

/-- Synchronous prefix of `processFinalText` in src/App.tsx, up to the first
`await`: it calls `recognitionRef.current.abort()` (the `onend` handler is
left attached) and sets status PROCESSING.  The returned action list records
the imperative calls issued against the recognition handle, in order. -/
def processFinalTextSync (s : MainSt) : MainSt × List MicAction :=
  ({ s with recRunning := false, status := AppStatus.PROCESSING },
   [MicAction.abortRec])

/-- Handler `recognition.onresult` of src/App.tsx.  The event carries the
concatenation of its final transcripts.  The handler returns early when the
guard is set or the live status mirror is not LISTENING; otherwise, when the
trimmed transcript is nonempty, it sets the guard synchronously and then
invokes `processFinalText`, whose synchronous prefix runs before any await.
The Boolean result records whether a turn was accepted. -/
def onresult (s : MainSt) (finalTranscript : String) : MainSt × Bool :=
  if s.guard = true ∨ s.status ≠ AppStatus.LISTENING then (s, false)
  else if jsTrim finalTranscript ≠ "" then
    ((processFinalTextSync { s with guard := true }).1, true)
  else (s, false)

/-- State observed by asynchronous work after an accepting `onresult`: the
guard is already set before `processFinalText` runs. -/
def onresultGuardFirst (s : MainSt) : MainSt :=
  { s with guard := true }

/-- Deliver a back-to-back burst of `onresult` events (no asynchronous stage
resolves in between), returning the final state and the number of events
that produced a Turn. -/
def runResults (s : MainSt) : List String → MainSt × Nat
  | [] => (s, 0)
  | t :: ts =>
    let r := onresult s t
    let rest := runResults r.1 ts
    (rest.1, (if r.2 then 1 else 0) + rest.2)

/-- Continuation of `processFinalText` in src/App.tsx after the correction
call resolves: the turn record is stored (corrected text equals the call
result when correction is enabled, the original text otherwise) and `speak`
is entered.  Returns the new state and the processed text handed to
`speak`. -/
def processFinalTextResolve (s : MainSt) (text : String) (useCorrection : Bool)
    (call : CallResult) (now : Nat) : MainSt × String :=
  let processedText := if useCorrection then correctTranscription call text else text
  ({ s with lastTranscription := some ⟨text, processedText, now⟩ },
   processedText)

/-- Synchronous prefix of `speak` in src/App.tsx: it sets status SPEAKING
unconditionally before awaiting the synthesis call. -/
def speakStart (s : MainSt) : MainSt :=
  { s with status := AppStatus.SPEAKING }

/-- Continuation of `speak` in src/App.tsx after `synthesizeSpeech`
resolves.  With audio present, playback is prepared and started (the Boolean
result records that playback began).  With `undefined` audio, the guard is
released, status is set to LISTENING and recognition is started again, in
this same step, with no timer scheduled. -/
def speakAfterSynth (s : MainSt) : Option String → MainSt × Bool
  | some _ => (s, true)
  | none =>
    ({ s with guard := false, status := AppStatus.LISTENING, recRunning := true },
     false)

/-- Catch block of `speak` in src/App.tsx, reached on a playback or
audio-decoding error: the guard is released and status is forced to IDLE. -/
def speakCatch (s : MainSt) : MainSt :=
  { s with guard := false, status := AppStatus.IDLE }

/-- Cooldown delay of src/App.tsx: `source.onended` schedules its callback
with `setTimeout(..., 1000)`. -/
def cooldownDelay : Nat := 1000

/-- Callback scheduled by `source.onended` in src/App.tsx, run after the
cooldown delay: it releases the guard, and when the live status mirror is
not IDLE it sets status LISTENING and restarts recognition. -/
def cooldownCallback (s : MainSt) : MainSt :=
  let s1 := { s with guard := false }
  if s1.status ≠ AppStatus.IDLE then
    { s1 with status := AppStatus.LISTENING, recRunning := true }
  else s1

/-- Timed view of the quiescent interval after playback ends in
src/App.tsx: the `onended` handler itself performs no state change, only
scheduling `cooldownCallback` after `cooldownDelay` milliseconds, so at
`d` milliseconds past the playback-end event the state is the pre-event
state for `d < cooldownDelay` and the callback result from then on. -/
def stateAfterPlaybackEnd (s : MainSt) (d : Nat) : MainSt :=
  if d < cooldownDelay then s else cooldownCallback s

/-- Handler `recognition.onend` of src/App.tsx: when the live status mirror
is LISTENING and the guard is clear, recognition is restarted (no visible
state change); otherwise the capability stays ended.  The Boolean result
records whether a restart was issued. -/
def onend (s : MainSt) : MainSt × Bool :=
  if s.status = AppStatus.LISTENING ∧ s.guard = false then
    ({ s with recRunning := true }, true)
  else
    ({ s with recRunning := false }, false)

/-- Handler `recognition.onerror` of src/App.tsx: a `no-speech` error is
ignored; every other error code forces status IDLE and clears the guard. -/
def onerror (s : MainSt) (code : String) : MainSt :=
  if code ≠ "no-speech" then
    { s with status := AppStatus.IDLE, guard := false }
  else s

/-- Deactivation branch of `toggleListening` in src/App.tsx (taken whenever
status is not IDLE): it clears the guard, aborts recognition and sets
status IDLE. -/
def deactivate (s : MainSt) : MainSt :=
  { s with guard := false, recRunning := false, status := AppStatus.IDLE }

/-- Embedding of `toggleListening` from src/App.tsx: from IDLE it starts the
recognition capability (initialising it when absent, so `onend` is
attached); from any other status it deactivates. -/
def toggleListening (s : MainSt) : MainSt :=
  if s.status = AppStatus.IDLE then
    { s with recRunning := true, onendAttached := true }
  else deactivate s

end AppMain

namespace AppAlt

/-- Coordinator state of the src/unnamed/part_000 revision, with the same
reading of the fields as `AppMain.MainSt`. -/
structure AltSt where
  status : AppStatus
  guard : Bool
  recRunning : Bool
  onendAttached : Bool
  lastTranscription : Option TranscriptionResult
deriving DecidableEq, Repr

/-- Embedding of `stopMicrophone` from src/unnamed/part_000: it first sets
`recognition.onend = null` and then calls `recognition.abort()`.  The action
list records the two calls in source order. -/
def stopMicrophone (s : AltSt) : AltSt × List MicAction :=
  ({ s with onendAttached := false, recRunning := false },
   [MicAction.detachOnend, MicAction.abortRec])

/-- Embedding of `startMicrophone` from src/unnamed/part_000: it returns
immediately when the live status mirror is IDLE; otherwise it runs
`stopMicrophone`, rebuilds the recognition object via `initRecognition`
(which re-attaches every handler) and starts it. -/
def startMicrophone (s : AltSt) : AltSt :=
  if s.status = AppStatus.IDLE then s
  else
    let s1 := (stopMicrophone s).1
    { s1 with onendAttached := true, recRunning := true }

/-- Handler `recognition.onstart` of src/unnamed/part_000: sets status
LISTENING and clears the guard. -/
def onstartAlt (s : AltSt) : AltSt :=
  { s with status := AppStatus.LISTENING, guard := false }

/-- Synchronous prefix of `processFinalText` in src/unnamed/part_000, up to
the first `await`: it runs `stopMicrophone` (detaching `onend`, then
aborting) and sets status PROCESSING. -/
def processFinalTextSyncAlt (s : AltSt) : AltSt × List MicAction :=
  let r := stopMicrophone s
  ({ r.1 with status := AppStatus.PROCESSING }, r.2)

/-- Handler `recognition.onresult` of src/unnamed/part_000: it returns early
when the guard is set (no status check in this revision); otherwise, when
the trimmed first transcript is nonempty, it sets the guard and invokes
`processFinalText`.  The Boolean result records whether a turn was
accepted. -/
def onresultAlt (s : AltSt) (text : String) : AltSt × Bool :=
  if s.guard = true then (s, false)
  else if jsTrim text ≠ "" then
    ((processFinalTextSyncAlt { s with guard := true }).1, true)
  else (s, false)

/-- Deliver a back-to-back burst of `onresult` events to the
src/unnamed/part_000 handler, counting accepted turns. -/
def runResultsAlt (s : AltSt) : List String → AltSt × Nat
  | [] => (s, 0)
  | t :: ts =>
    let r := onresultAlt s t
    let rest := runResultsAlt r.1 ts
    (rest.1, (if r.2 then 1 else 0) + rest.2)

/-- Handler `recognition.onend` of src/unnamed/part_000: when the live
status mirror is LISTENING and the guard is clear, `startMicrophone` is run;
otherwise nothing happens.  The Boolean result records whether a restart was
issued. -/
def onendAlt (s : AltSt) : AltSt × Bool :=
  if s.status = AppStatus.LISTENING ∧ s.guard = false then
    (startMicrophone s, true)
  else
    ({ s with recRunning := false }, false)

/-- Synchronous prefix of `speak` in src/unnamed/part_000: sets status
SPEAKING unconditionally before awaiting the synthesis call. -/
def speakStartAlt (s : AltSt) : AltSt :=
  { s with status := AppStatus.SPEAKING }

/-- Catch block of `speak` in src/unnamed/part_000, reached on any error in
the speak body, including the explicit `throw new Error` of the no-audio
branch: it clears the guard, sets status LISTENING and restarts the
microphone. -/
def speakCatchAlt (s : AltSt) : AltSt :=
  startMicrophone { s with guard := false, status := AppStatus.LISTENING }

/-- Continuation of `speak` in src/unnamed/part_000 after
`synthesizeSpeech` resolves: with audio present, playback is prepared and
started; with `undefined` audio the code throws `No audio data`, landing in
the catch block, in this same step and with no timer scheduled.  The
Boolean result records whether playback began. -/
def speakAfterSynthAlt (s : AltSt) : Option String → AltSt × Bool
  | some _ => (s, true)
  | none => (speakCatchAlt s, false)

/-- Cooldown delay of src/unnamed/part_000: `source.onended` schedules its
callback with `setTimeout(..., 800)`. -/
def cooldownDelayAlt : Nat := 800

/-- Callback scheduled by `source.onended` in src/unnamed/part_000, run
after the cooldown delay: it releases the guard, and when the live status
mirror is not IDLE it runs `startMicrophone` (status becomes LISTENING on
the subsequent `onstart` event). -/
def cooldownCallbackAlt (s : AltSt) : AltSt :=
  let s1 := { s with guard := false }
  if s1.status ≠ AppStatus.IDLE then startMicrophone s1 else s1

/-- Timed view of the quiescent interval after playback ends in
src/unnamed/part_000, in the style of `AppMain.stateAfterPlaybackEnd`. -/
def stateAfterPlaybackEndAlt (s : AltSt) (d : Nat) : AltSt :=
  if d < cooldownDelayAlt then s else cooldownCallbackAlt s

/-- Deactivation branch of the footer button of src/unnamed/part_000 (taken
whenever status is not IDLE): it sets status IDLE and runs
`stopMicrophone`.  This revision does not clear the guard here. -/
def deactivateAlt (s : AltSt) : AltSt :=
  (stopMicrophone { s with status := AppStatus.IDLE }).1

end AppAlt

namespace Sys

/-- Phase of the asynchronous turn pipeline of src/App.tsx, tracking which
continuation of `processFinalText`/`speak` is pending: no turn in flight,
awaiting the correction call (with the accepted trimmed transcript),
awaiting the synthesis call (with original and corrected text), playback in
progress, or the cooldown timer pending. -/
inductive TurnPhase where
  | noTurn
  | correcting (text : String)
  | synthesizing (original corrected : String)
  | playing
  | cooldown
deriving DecidableEq, Repr

/-- Whole-system state of src/App.tsx: status (with its live mirror),
the processing guard, whether recognition is actively listening, the
pending pipeline phase and the stored last turn. -/
structure SysState where
  status : AppStatus
  guard : Bool
  recRunning : Bool
  phase : TurnPhase
  lastTranscription : Option TranscriptionResult
deriving DecidableEq, Repr

/-- Events delivered to the src/App.tsx coordinator on its single event
loop: recognition lifecycle events, the user toggle, the resolutions of the
correction and synthesis calls (with the outcome of the external call), a
decoding or playback failure, the playback-end event and the cooldown timer
firing. -/
inductive Event where
  | recStart
  | recResult (transcript : String)
  | recEnd
  | recError (code : String)
  | toggle
  | correctionDone (call : CallResult)
  | synthDone (audio : Option String)
  | decodeFail
  | playbackEnd
  | cooldownFire
deriving DecidableEq, Repr

/-- One event-loop step of src/App.tsx.  Each branch is the corresponding
handler of the source, run to its next `await` point: recognition events
fire only while the capability runs; `onresult` applies its guard and
live-status checks, then sets the guard, aborts recognition and enters
PROCESSING; `toggleListening` starts recognition from IDLE and otherwise
deactivates; `correctionDone` stores the turn (correction is enabled by the
default settings, which the UI never changes) and enters `speak`, which sets
SPEAKING before awaiting synthesis; `synthDone` starts playback or, with no
audio, recovers to LISTENING; `decodeFail` is the catch block of `speak`;
`playbackEnd` schedules the cooldown; `cooldownFire` is the scheduled
callback.  Pipeline resolutions are ignored unless their phase is pending;
timestamps are modelled as 0. -/
def step (s : SysState) : Event → SysState
  | Event.recStart =>
    if s.recRunning then { s with status := AppStatus.LISTENING, guard := false }
    else s
  | Event.recResult t =>
    if ¬ s.recRunning then s
    else if s.guard = true ∨ s.status ≠ AppStatus.LISTENING then s
    else if jsTrim t ≠ "" then
      { s with guard := true, recRunning := false,
               status := AppStatus.PROCESSING, phase := TurnPhase.correcting (jsTrim t) }
    else s
  | Event.recEnd =>
    if ¬ s.recRunning then s
    else if s.status = AppStatus.LISTENING ∧ s.guard = false then s
    else { s with recRunning := false }
  | Event.recError code =>
    if ¬ s.recRunning then s
    else if code ≠ "no-speech" then
      { s with status := AppStatus.IDLE, guard := false }
    else s
  | Event.toggle =>
    if s.status = AppStatus.IDLE then { s with recRunning := true }
    else { s with guard := false, recRunning := false, status := AppStatus.IDLE }
  | Event.correctionDone call =>
    match s.phase with
    | TurnPhase.correcting orig =>
      let corrected := correctTranscription call orig
      { s with lastTranscription := some ⟨orig, corrected, 0⟩,
               status := AppStatus.SPEAKING,
               phase := TurnPhase.synthesizing orig corrected }
    | _ => s
  | Event.synthDone audio =>
    match s.phase with
    | TurnPhase.synthesizing _ _ =>
      match audio with
      | some _ => { s with phase := TurnPhase.playing }
      | none =>
        { s with guard := false, status := AppStatus.LISTENING,
                 recRunning := true, phase := TurnPhase.noTurn }
    | _ => s
  | Event.decodeFail =>
    match s.phase with
    | TurnPhase.synthesizing _ _ =>
      { s with guard := false, status := AppStatus.IDLE, phase := TurnPhase.noTurn }
    | _ => s
  | Event.playbackEnd =>
    match s.phase with
    | TurnPhase.playing => { s with phase := TurnPhase.cooldown }
    | _ => s
  | Event.cooldownFire =>
    match s.phase with
    | TurnPhase.cooldown =>
      let s1 := { s with guard := false, phase := TurnPhase.noTurn }
      if s1.status ≠ AppStatus.IDLE then
        { s1 with status := AppStatus.LISTENING, recRunning := true }
      else s1
    | _ => s

/-- Initial state of src/App.tsx: IDLE, guard clear, recognition not
running, no turn. -/
def initState : SysState :=
  ⟨AppStatus.IDLE, false, false, TurnPhase.noTurn, none⟩

/-- State reached from the initial state by a trace of delivered events. -/
def reaches (es : List Event) : SysState :=
  es.foldl step initState

/-- Guard-lifecycle invariant of src/App.tsx: the guard is clear whenever
status is IDLE, clear whenever status is LISTENING (a plain listening state
carries no turn), only set while a turn phase is in flight, and the
recognition capability is never running while the guard is set. -/
def GuardInv (s : SysState) : Prop :=
  (s.status = AppStatus.IDLE → s.guard = false) ∧
  (s.status = AppStatus.LISTENING → s.guard = false) ∧
  (s.guard = true → s.phase ≠ TurnPhase.noTurn) ∧
  (s.guard = true → s.recRunning = false)

instance (s : SysState) : Decidable (GuardInv s) := by
  unfold GuardInv
  infer_instance

/-- Events whose handlers can release the processing guard in src/App.tsx:
user deactivation, a fatal recognition error, the no-audio recovery, the
playback-error catch and the cooldown expiry. -/
def clearsGuard : Event → Bool
  | Event.toggle => true
  | Event.recError code => code ≠ "no-speech"
  | Event.synthDone none => true
  | Event.decodeFail => true
  | Event.cooldownFire => true
  | _ => false

end Sys

open AppMain AppAlt Sys

/-- Event trace of src/App.tsx in which the user activates, recognition
starts, a final transcript is accepted, and the user deactivates while the
correction call is still in flight. -/
def deactivateDuringCorrection : List Event :=
  [Event.toggle, Event.recStart, Event.recResult "hola que tal", Event.toggle]

/-- The trace above extended by the resolution of the in-flight correction
call. -/
def correctionResolvesAfterDeactivate : List Event :=
  deactivateDuringCorrection ++ [Event.correctionDone (CallResult.returns "Hola que tal")]

/-- Every single event-loop step of src/App.tsx preserves the
guard-lifecycle invariant. -/
theorem guardInv_step (s : SysState) (e : Event) (h : GuardInv s) :
    GuardInv (step s e) := by
  obtain ⟨h1, h2, h3, h4⟩ := h
  cases e with
  | recStart =>
    by_cases hr : s.recRunning = true
    · simp [step, hr, GuardInv]
    · simp only [step, hr, if_neg, Bool.false_eq_true]
      simp only [Bool.not_eq_true] at hr
      simp [hr]
      exact ⟨h1, h2, h3, h4⟩
  | recResult t =>
    by_cases hr : s.recRunning = true
    · by_cases hg : s.guard = true ∨ s.status ≠ AppStatus.LISTENING
      · simp only [step, hr]
        simp [hg]
        exact ⟨h1, h2, h3, h4⟩
      · by_cases ht : jsTrim t ≠ ""
        · simp only [step, hr]
          simp [hg, ht, GuardInv]
        · simp only [step, hr]
          simp [hg, ht]
          exact ⟨h1, h2, h3, h4⟩
    · simp only [Bool.not_eq_true] at hr
      simp [step, hr]
      exact ⟨h1, h2, h3, h4⟩
  | recEnd =>
    by_cases hr : s.recRunning = true
    · by_cases hl : s.status = AppStatus.LISTENING ∧ s.guard = false
      · simp [step, hr, hl]
        exact ⟨h1, h2, h3, h4⟩
      · simp [step, hr, hl, GuardInv]
        exact ⟨h1, h2, h3⟩
    · simp only [Bool.not_eq_true] at hr
      simp [step, hr]
      exact ⟨h1, h2, h3, h4⟩
  | recError code =>
    by_cases hr : s.recRunning = true
    · by_cases hc : code ≠ "no-speech"
      · simp [step, hr, hc, GuardInv]
      · simp [step, hr, hc]
        exact ⟨h1, h2, h3, h4⟩
    · simp only [Bool.not_eq_true] at hr
      simp [step, hr]
      exact ⟨h1, h2, h3, h4⟩
  | toggle =>
    by_cases hi : s.status = AppStatus.IDLE
    · simp [step, hi, GuardInv, h1 hi]
    · simp [step, hi, GuardInv]
  | correctionDone call =>
    cases hp : s.phase with
    | correcting orig => simp [step, hp, GuardInv]; exact h4
    | noTurn => simp [step, hp]; exact ⟨h1, h2, h3, h4⟩
    | synthesizing o c => simp [step, hp]; exact ⟨h1, h2, h3, h4⟩
    | playing => simp [step, hp]; exact ⟨h1, h2, h3, h4⟩
    | cooldown => simp [step, hp]; exact ⟨h1, h2, h3, h4⟩
  | synthDone audio =>
    cases hp : s.phase with
    | synthesizing o c =>
      cases audio with
      | some a => simp [step, hp, GuardInv]; exact ⟨h1, h2, h4⟩
      | none => simp [step, hp, GuardInv]
    | noTurn => cases audio <;> (simp [step, hp]; exact ⟨h1, h2, h3, h4⟩)
    | correcting orig => cases audio <;> (simp [step, hp]; exact ⟨h1, h2, h3, h4⟩)
    | playing => cases audio <;> (simp [step, hp]; exact ⟨h1, h2, h3, h4⟩)
    | cooldown => cases audio <;> (simp [step, hp]; exact ⟨h1, h2, h3, h4⟩)
  | decodeFail =>
    cases hp : s.phase with
    | synthesizing o c => simp [step, hp, GuardInv]
    | noTurn => simp [step, hp]; exact ⟨h1, h2, h3, h4⟩
    | correcting orig => simp [step, hp]; exact ⟨h1, h2, h3, h4⟩
    | playing => simp [step, hp]; exact ⟨h1, h2, h3, h4⟩
    | cooldown => simp [step, hp]; exact ⟨h1, h2, h3, h4⟩
  | playbackEnd =>
    cases hp : s.phase with
    | playing => simp [step, hp, GuardInv]; exact ⟨h1, h2, h4⟩
    | noTurn => simp [step, hp]; exact ⟨h1, h2, h3, h4⟩
    | correcting orig => simp [step, hp]; exact ⟨h1, h2, h3, h4⟩
    | synthesizing o c => simp [step, hp]; exact ⟨h1, h2, h3, h4⟩
    | cooldown => simp [step, hp]; exact ⟨h1, h2, h3, h4⟩
  | cooldownFire =>
    cases hp : s.phase with
    | cooldown =>
      by_cases hi : s.status = AppStatus.IDLE
      · simp [step, hp, hi, GuardInv]
      · simp [step, hp, hi, GuardInv]
    | noTurn => simp [step, hp]; exact ⟨h1, h2, h3, h4⟩
    | correcting orig => simp [step, hp]; exact ⟨h1, h2, h3, h4⟩
    | synthesizing o c => simp [step, hp]; exact ⟨h1, h2, h3, h4⟩
    | playing => simp [step, hp]; exact ⟨h1, h2, h3, h4⟩

/-- The guard-lifecycle invariant holds along every trace from any state
satisfying it. -/
theorem guardInv_foldl (es : List Event) (s : SysState) (h : GuardInv s) :
    GuardInv (es.foldl step s) := by
  induction es generalizing s with
  | nil => exact h
  | cons e es ih => exact ih (step s e) (guardInv_step s e h)

/-- The guard-lifecycle invariant holds in every reachable state of
src/App.tsx. -/
theorem guardInv_reaches (es : List Event) : GuardInv (reaches es) :=
  guardInv_foldl es initState (by simp [GuardInv, initState])

/-- With the guard set, the src/App.tsx result handler discards the event
with no state change. -/
theorem onresult_guarded (s : MainSt) (t : String) (hg : s.guard = true) :
    onresult s t = (s, false) := by
  simp [onresult, hg]

/-- With the live status mirror away from LISTENING, the src/App.tsx result
handler discards the event with no state change. -/
theorem onresult_not_listening (s : MainSt) (t : String)
    (hs : s.status ≠ AppStatus.LISTENING) : onresult s t = (s, false) := by
  simp [onresult, hs]

/-- An accepted result leaves the src/App.tsx handler with the guard set:
the state handed to the asynchronous stage already carries it. -/
theorem onresult_accept_guard (s : MainSt) (t : String)
    (h : (onresult s t).2 = true) : (onresult s t).1.guard = true := by
  by_cases h1 : s.guard = true ∨ s.status ≠ AppStatus.LISTENING
  · simp [onresult, h1] at h
  · by_cases h2 : jsTrim t = ""
    · simp [onresult, h1, h2] at h
    · simp [onresult, h1, h2, processFinalTextSync]

/-- With the guard set, a whole burst of results leaves the src/App.tsx
state unchanged and produces no turn. -/
theorem runResults_guarded (s : MainSt) (hg : s.guard = true) :
    ∀ ts : List String, runResults s ts = (s, 0) := by
  intro ts
  induction ts with
  | nil => rfl
  | cons t ts ih =>
    simp [runResults, onresult_guarded s t hg, ih]

/-- A back-to-back burst of results produces at most one turn in
src/App.tsx. -/
theorem runResults_le_one (ts : List String) (s : MainSt) :
    (runResults s ts).2 ≤ 1 := by
  induction ts generalizing s with
  | nil => simp [runResults]
  | cons t ts ih =>
    by_cases hacc : (onresult s t).2 = true
    · have hg := onresult_accept_guard s t hacc
      simp [runResults, hacc, runResults_guarded (onresult s t).1 hg ts]
    · simp at hacc
      simp [runResults, hacc]
      exact ih (onresult s t).1

/-- With the guard set, the src/unnamed/part_000 result handler discards
the event with no state change. -/
theorem onresultAlt_guarded (s : AltSt) (t : String) (hg : s.guard = true) :
    onresultAlt s t = (s, false) := by
  simp [onresultAlt, hg]

/-- An accepted result leaves the src/unnamed/part_000 handler with the
guard set. -/
theorem onresultAlt_accept_guard (s : AltSt) (t : String)
    (h : (onresultAlt s t).2 = true) : (onresultAlt s t).1.guard = true := by
  by_cases h1 : s.guard = true
  · simp [onresultAlt, h1] at h
  · by_cases h2 : jsTrim t = ""
    · simp [onresultAlt, h1, h2] at h
    · simp [onresultAlt, h1, h2, processFinalTextSyncAlt, stopMicrophone]

/-- With the guard set, a whole burst of results leaves the
src/unnamed/part_000 state unchanged and produces no turn. -/
theorem runResultsAlt_guarded (s : AltSt) (hg : s.guard = true) :
    ∀ ts : List String, runResultsAlt s ts = (s, 0) := by
  intro ts
  induction ts with
  | nil => rfl
  | cons t ts ih =>
    simp [runResultsAlt, onresultAlt_guarded s t hg, ih]

/-- A back-to-back burst of results produces at most one turn in
src/unnamed/part_000. -/
theorem runResultsAlt_le_one (ts : List String) (s : AltSt) :
    (runResultsAlt s ts).2 ≤ 1 := by
  induction ts generalizing s with
  | nil => simp [runResultsAlt]
  | cons t ts ih =>
    by_cases hacc : (onresultAlt s t).2 = true
    · have hg := onresultAlt_accept_guard s t hacc
      simp [runResultsAlt, hacc, runResultsAlt_guarded (onresultAlt s t).1 hg ts]
    · simp at hacc
      simp [runResultsAlt, hacc]
      exact ih (onresultAlt s t).1

/-- C1: in src/App.tsx, a result event delivered while the processing
guard is set, or while the live status mirror is not LISTENING, is
discarded with no state change; an accepted result sets the guard
synchronously inside the `onresult` handler, before the asynchronous body
of `processFinalText` begins (the state handed to `processFinalText`
already carries the guard); and any back-to-back burst of result events
produces at most one Turn.  In the src/unnamed/part_000 revision the guard
check likewise discards results delivered while the guard is set and bounds
every burst to at most one Turn. -/
theorem C1_at_most_one_turn :
    (∀ (s : MainSt) (t : String), s.guard = true → onresult s t = (s, false)) ∧
    (∀ (s : MainSt) (t : String), s.status ≠ AppStatus.LISTENING →
      onresult s t = (s, false)) ∧
    (∀ (s : MainSt) (t : String), (onresult s t).2 = true →
      onresult s t = ((processFinalTextSync (onresultGuardFirst s)).1, true) ∧
      (onresultGuardFirst s).guard = true ∧ (onresult s t).1.guard = true) ∧
    (∀ (s : MainSt) (ts : List String), (runResults s ts).2 ≤ 1) ∧
    (∀ (s : AltSt) (t : String), s.guard = true → onresultAlt s t = (s, false)) ∧
    (∀ (s : AltSt) (ts : List String), (runResultsAlt s ts).2 ≤ 1) := by
  refine ⟨fun s t hg => onresult_guarded s t hg,
          fun s t hs => onresult_not_listening s t hs,
          ?_,
          fun s ts => runResults_le_one ts s,
          fun s t hg => onresultAlt_guarded s t hg,
          fun s ts => runResultsAlt_le_one ts s⟩
  intro s t h
  by_cases h1 : s.guard = true ∨ s.status ≠ AppStatus.LISTENING
  · simp [onresult, h1] at h
  · by_cases h2 : jsTrim t = ""
    · simp [onresult, h1, h2] at h
    · exact ⟨by simp [onresult, h1, h2, onresultGuardFirst], rfl,
             onresult_accept_guard s t h⟩

/-- Witness for C1 at concrete states: a result arriving with the guard set
is dropped unchanged, and a two-event burst from a clean listening state
yields at most one Turn. -/
theorem C1_witness :
    onresult ⟨AppStatus.LISTENING, true, true, true, none⟩ "hola" =
      (⟨AppStatus.LISTENING, true, true, true, none⟩, false) ∧
    (runResults ⟨AppStatus.LISTENING, false, true, true, none⟩
      ["hola", "adios"]).2 ≤ 1 :=
  ⟨C1_at_most_one_turn.1 _ "hola" rfl,
   C1_at_most_one_turn.2.2.2.1 _ ["hola", "adios"]⟩

/-- C10: a result event whose final transcript trims to the empty string
creates no Turn and leaves the coordinator state, including the guard,
exactly unchanged, in both revisions. -/
theorem C10_whitespace_ignored (t : String) (ht : jsTrim t = "") :
    (∀ s : MainSt, onresult s t = (s, false)) ∧
    (∀ s : AltSt, onresultAlt s t = (s, false)) := by
  constructor
  · intro s
    by_cases h1 : s.guard = true ∨ s.status ≠ AppStatus.LISTENING
    · simp [onresult, h1]
    · simp [onresult, h1, ht]
  · intro s
    by_cases h1 : s.guard = true
    · simp [onresultAlt, h1]
    · simp [onresultAlt, h1, ht]

/-- Witness for C10 at a concrete whitespace transcript and listening
state: the event is discarded in both revisions. -/
theorem C10_witness :
    (jsTrim "   " = "") ∧
    onresult ⟨AppStatus.LISTENING, false, true, true, none⟩ "   " =
      (⟨AppStatus.LISTENING, false, true, true, none⟩, false) ∧
    onresultAlt ⟨AppStatus.LISTENING, false, true, true, none⟩ "   " =
      (⟨AppStatus.LISTENING, false, true, true, none⟩, false) :=
  ⟨by decide,
   (C10_whitespace_ignored "   " (by decide)).1 _,
   (C10_whitespace_ignored "   " (by decide)).2 _⟩

/-- C4: when the correction call fails, by throwing or by returning a
response that trims to the empty string, `correctTranscription` returns the
original input text unchanged, and the Turn then stored by
`processFinalText` has corrected text equal to its original text.  The
embedding of `correctTranscription` is a total function because the source
catches every exception at the service boundary, so nothing is raised past
it. -/
theorem C4_correction_fallback (text : String) (call : CallResult)
    (hfail : call = CallResult.throws ∨
      ∃ r, call = CallResult.returns r ∧ jsTrim r = "") :
    correctTranscription call text = text ∧
    ∀ (s : MainSt) (now : Nat),
      (processFinalTextResolve s text true call now).1.lastTranscription =
        some ⟨text, text, now⟩ := by
  have hcorr : correctTranscription call text = text := by
    unfold correctTranscription
    by_cases hshort : text = "" ∨ text.length < 3
    · simp [hshort]
    · rcases hfail with h | ⟨r, hr, htrim⟩
      · simp [hshort, h]
      · simp [hshort, hr, htrim]
  refine ⟨hcorr, fun s now => ?_⟩
  simp [processFinalTextResolve, hcorr]

/-- Witness for C4 at a concrete transcript: a throwing call and an
empty-response call both leave the stored Turn with corrected text equal to
the original. -/
theorem C4_witness :
    correctTranscription CallResult.throws "ola como estas" = "ola como estas" ∧
    (processFinalTextResolve ⟨AppStatus.PROCESSING, true, false, true, none⟩
        "ola como estas" true (CallResult.returns "  ") 5).1.lastTranscription =
      some ⟨"ola como estas", "ola como estas", 5⟩ :=
  ⟨(C4_correction_fallback "ola como estas" CallResult.throws (Or.inl rfl)).1,
   (C4_correction_fallback "ola como estas" (CallResult.returns "  ")
      (Or.inr ⟨"  ", rfl, by decide⟩)).2 _ 5⟩

/-- C5: when the synthesis call resolves with no audio, src/App.tsx starts
no playback and, in that same continuation with no timer scheduled,
releases the guard, sets status LISTENING and restarts recognition; the
one-step LTS form states the same for the full system.  The
src/unnamed/part_000 revision reaches the same listening state through its
catch block. -/
theorem C5_no_audio_recovery :
    (∀ s : MainSt, speakAfterSynth s none =
      ({ s with guard := false, status := AppStatus.LISTENING, recRunning := true }, false)) ∧
    (∀ (s : SysState) (o c : String), s.phase = TurnPhase.synthesizing o c →
      step s (Event.synthDone none) =
        { s with guard := false, status := AppStatus.LISTENING, recRunning := true, phase := TurnPhase.noTurn }) ∧
    (∀ s : AltSt, (speakAfterSynthAlt s none).2 = false ∧
      (speakAfterSynthAlt s none).1.guard = false ∧
      (speakAfterSynthAlt s none).1.status = AppStatus.LISTENING) := by
  refine ⟨fun s => rfl, fun s o c hp => ?_, fun s => ?_⟩
  · simp [step, hp]
  · simp [speakAfterSynthAlt, speakCatchAlt, startMicrophone, stopMicrophone]

/-- Witness for C5 at a concrete speaking state of the full system: the
no-audio resolution yields LISTENING with the guard clear in one step. -/
theorem C5_witness :
    step ⟨AppStatus.SPEAKING, true, false, TurnPhase.synthesizing "a" "b", none⟩
        (Event.synthDone none) =
      ⟨AppStatus.LISTENING, false, true, TurnPhase.noTurn, none⟩ :=
  C5_no_audio_recovery.2.1 _ "a" "b" rfl

/-- C6: in src/App.tsx, a recognition end event arriving while the live
status mirror is LISTENING with the guard clear restarts the capability
with status, guard and stored turn untouched; one arriving with the guard
set, or while status is IDLE, issues no restart.  The
src/unnamed/part_000 revision applies the same condition. -/
theorem C6_self_heal :
    (∀ s : MainSt, s.status = AppStatus.LISTENING → s.guard = false →
      onend s = ({ s with recRunning := true }, true)) ∧
    (∀ s : MainSt, s.guard = true → (onend s).2 = false) ∧
    (∀ s : MainSt, s.status = AppStatus.IDLE → (onend s).2 = false) ∧
    (∀ s : AltSt, s.status = AppStatus.LISTENING → s.guard = false →
      (onendAlt s).2 = true ∧ (onendAlt s).1.status = s.status ∧
      (onendAlt s).1.guard = s.guard ∧ (onendAlt s).1.recRunning = true) ∧
    (∀ s : AltSt, s.guard = true → (onendAlt s).2 = false) ∧
    (∀ s : AltSt, s.status = AppStatus.IDLE → (onendAlt s).2 = false) := by
  refine ⟨fun s hs hg => by simp [onend, hs, hg],
          fun s hg => by simp [onend, hg],
          fun s hs => by simp [onend, hs],
          fun s hs hg => by simp [onendAlt, hs, hg, startMicrophone, stopMicrophone],
          fun s hg => by simp [onendAlt, hg],
          fun s hs => by simp [onendAlt, hs]⟩

/-- Witness for C6 at concrete states: a clean listening state restarts on
end, and a guarded state and an idle state do not. -/
theorem C6_witness :
    onend ⟨AppStatus.LISTENING, false, false, true, none⟩ =
      (⟨AppStatus.LISTENING, false, true, true, none⟩, true) ∧
    (onend ⟨AppStatus.PROCESSING, true, false, true, none⟩).2 = false ∧
    (onend ⟨AppStatus.IDLE, false, false, true, none⟩).2 = false :=
  ⟨C6_self_heal.1 _ rfl rfl,
   C6_self_heal.2.1 _ rfl,
   C6_self_heal.2.2.1 _ rfl⟩

/-- C7 as stated fails on the src/unnamed/part_000 revision: from a
concrete Speaking state with the guard set, its playback-error catch block
yields status LISTENING, not IDLE. -/
theorem C7_counterexample :
    (speakCatchAlt ⟨AppStatus.SPEAKING, true, false, false, none⟩).status =
      AppStatus.LISTENING ∧
    ¬ (speakCatchAlt ⟨AppStatus.SPEAKING, true, false, false, none⟩).status =
      AppStatus.IDLE := by
  constructor
  · rfl
  · intro h
    exact absurd h (by decide)

/-- C7 amended: on a playback or audio-decoding error during the Speaking
phase, src/App.tsx clears the guard and forces status IDLE; the
src/unnamed/part_000 revision also clears the guard but instead returns to
LISTENING and restarts the microphone, treating the error like a synthesis
miss. -/
theorem C7_amended :
    (∀ s : MainSt, speakCatch s = { s with guard := false, status := AppStatus.IDLE }) ∧
    (∀ (s : SysState) (o c : String), s.phase = TurnPhase.synthesizing o c →
      step s Event.decodeFail =
        { s with guard := false, status := AppStatus.IDLE, phase := TurnPhase.noTurn }) ∧
    (∀ s : AltSt, (speakCatchAlt s).guard = false ∧
      (speakCatchAlt s).status = AppStatus.LISTENING ∧
      (speakCatchAlt s).recRunning = true) := by
  refine ⟨fun s => rfl, fun s o c hp => by simp [step, hp], fun s => ?_⟩
  simp [speakCatchAlt, startMicrophone, stopMicrophone]

/-- Witness for the amended C7 at a concrete speaking state of the full
src/App.tsx system: a decoding failure forces IDLE with the guard clear. -/
theorem C7_witness :
    step ⟨AppStatus.SPEAKING, true, false, TurnPhase.synthesizing "a" "b", none⟩
        Event.decodeFail =
      ⟨AppStatus.IDLE, false, false, TurnPhase.noTurn, none⟩ :=
  C7_amended.2.1 _ "a" "b" rfl

/-- C9 as stated fails on src/App.tsx: at a concrete accepted transcript,
the synchronous prefix of `processFinalText` issues the abort while the
`onend` handler is still attached, and no detach action is recorded. -/
theorem C9_counterexample :
    (processFinalTextSync ⟨AppStatus.LISTENING, true, true, true, none⟩).1.onendAttached =
      true ∧
    ¬ MicAction.detachOnend ∈
      (processFinalTextSync ⟨AppStatus.LISTENING, true, true, true, none⟩).2 := by
  constructor
  · rfl
  · decide

/-- C9 amended: upon accepting a transcript, both revisions abort the
recognition capability aggressively (the recorded action is the abort call,
not a graceful stop).  The src/unnamed/part_000 revision detaches the
`onend` callback and then aborts, in that order; src/App.tsx leaves `onend`
attached, and its handler cannot re-arm recognition during the turn because
the guard, already set, makes it decline the restart. -/
theorem C9_amended :
    (∀ s : MainSt, (processFinalTextSync s).2 = [MicAction.abortRec] ∧
      (processFinalTextSync s).1.recRunning = false ∧
      (processFinalTextSync s).1.onendAttached = s.onendAttached) ∧
    (∀ s : AltSt, (processFinalTextSyncAlt s).2 =
        [MicAction.detachOnend, MicAction.abortRec] ∧
      (processFinalTextSyncAlt s).1.onendAttached = false ∧
      (processFinalTextSyncAlt s).1.recRunning = false) ∧
    (∀ s : MainSt, s.guard = true →
      (onend s).2 = false ∧ (onend s).1.status = s.status) := by
  refine ⟨fun s => ⟨rfl, rfl, rfl⟩,
          fun s => by simp [processFinalTextSyncAlt, stopMicrophone],
          fun s hg => by simp [onend, hg]⟩

/-- Witness for the amended C9 at a concrete accepted turn state: the
part_000 detach-then-abort order, the App.tsx abort, and the guarded
`onend` declining to restart. -/
theorem C9_witness :
    (processFinalTextSyncAlt ⟨AppStatus.LISTENING, true, true, true, none⟩).2 =
      [MicAction.detachOnend, MicAction.abortRec] ∧
    (processFinalTextSync ⟨AppStatus.LISTENING, true, true, true, none⟩).2 =
      [MicAction.abortRec] ∧
    (onend ⟨AppStatus.PROCESSING, true, false, true, none⟩).2 = false :=
  ⟨(C9_amended.2.1 _).1, (C9_amended.1 _).1, (C9_amended.2.2 _ rfl).1⟩

/-- C3: both revisions schedule a fixed cooldown in the 800 to 1000 ms
range after the playback-end event (1000 ms in src/App.tsx, 800 ms in
src/unnamed/part_000); the `onended` handler only schedules the callback,
so strictly inside the delay window the state is exactly the pre-event
state, in particular still SPEAKING and with recognition untouched; at or
after the delay the callback clears the guard and, unless status has
meanwhile become IDLE, status becomes LISTENING (in part_000 through the
restarted microphone, whose start event sets LISTENING). -/
theorem C3_cooldown_ordering :
    (800 ≤ cooldownDelay ∧ cooldownDelay ≤ 1000 ∧
      800 ≤ cooldownDelayAlt ∧ cooldownDelayAlt ≤ 1000) ∧
    (∀ (s : MainSt) (d : Nat), d < cooldownDelay → stateAfterPlaybackEnd s d = s) ∧
    (∀ (s : MainSt) (d : Nat), d < cooldownDelay → s.status = AppStatus.SPEAKING →
      (stateAfterPlaybackEnd s d).status ≠ AppStatus.LISTENING ∧
      (stateAfterPlaybackEnd s d).recRunning = s.recRunning) ∧
    (∀ (s : MainSt) (d : Nat), cooldownDelay ≤ d → s.status ≠ AppStatus.IDLE →
      (stateAfterPlaybackEnd s d).guard = false ∧
      (stateAfterPlaybackEnd s d).status = AppStatus.LISTENING) ∧
    (∀ (s : MainSt) (d : Nat), cooldownDelay ≤ d → s.status = AppStatus.IDLE →
      (stateAfterPlaybackEnd s d).guard = false ∧
      (stateAfterPlaybackEnd s d).status = AppStatus.IDLE) ∧
    (∀ (s : AltSt) (d : Nat), d < cooldownDelayAlt → stateAfterPlaybackEndAlt s d = s) ∧
    (∀ (s : AltSt) (d : Nat), cooldownDelayAlt ≤ d → s.status ≠ AppStatus.IDLE →
      (stateAfterPlaybackEndAlt s d).guard = false ∧
      (stateAfterPlaybackEndAlt s d).recRunning = true ∧
      (onstartAlt (stateAfterPlaybackEndAlt s d)).status = AppStatus.LISTENING) := by
  refine ⟨by decide, ?_, ?_, ?_, ?_, ?_, ?_⟩
  · intro s d hd
    simp [stateAfterPlaybackEnd, hd]
  · intro s d hd hs
    simp [stateAfterPlaybackEnd, hd, hs]
  · intro s d hd hs
    simp [stateAfterPlaybackEnd, Nat.not_lt.mpr hd, cooldownCallback, hs]
  · intro s d hd hs
    simp [stateAfterPlaybackEnd, Nat.not_lt.mpr hd, cooldownCallback, hs]
  · intro s d hd
    simp [stateAfterPlaybackEndAlt, hd]
  · intro s d hd hs
    simp [stateAfterPlaybackEndAlt, Nat.not_lt.mpr hd, cooldownCallbackAlt, hs,
      startMicrophone, stopMicrophone, onstartAlt]

/-- Witness for C3 at the boundary instants: 799 ms after playback end the
state is untouched and not LISTENING, and at 1000 ms it is LISTENING with
the guard clear (taking the src/App.tsx delay of 1000 ms). -/
theorem C3_witness :
    stateAfterPlaybackEnd ⟨AppStatus.SPEAKING, true, false, true, none⟩ 799 =
      ⟨AppStatus.SPEAKING, true, false, true, none⟩ ∧
    (stateAfterPlaybackEnd ⟨AppStatus.SPEAKING, true, false, true, none⟩ 1000).guard =
      false ∧
    (stateAfterPlaybackEnd ⟨AppStatus.SPEAKING, true, false, true, none⟩ 1000).status =
      AppStatus.LISTENING :=
  ⟨C3_cooldown_ordering.2.1 _ 799 (by decide),
   (C3_cooldown_ordering.2.2.2.1 _ 1000 (by decide) (by decide)).1,
   (C3_cooldown_ordering.2.2.2.1 _ 1000 (by decide) (by decide)).2⟩

/-- C2 as stated fails on src/App.tsx: along the concrete trace in which
the user activates, a transcript is accepted and the user deactivates while
the correction call is in flight, deactivation does yield IDLE with the
guard clear, yet the later resolution of that in-flight correction moves
status to SPEAKING. -/
theorem C2_counterexample :
    (reaches deactivateDuringCorrection).status = AppStatus.IDLE ∧
    (reaches deactivateDuringCorrection).guard = false ∧
    (reaches correctionResolvesAfterDeactivate).status = AppStatus.SPEAKING := by
  refine ⟨?_, ?_, ?_⟩ <;> decide

/-- C2 amended: in src/App.tsx, deactivation from any non-IDLE state (so
from each of Listening, Processing, Speaking) yields status IDLE with the
guard cleared, and the playback-end cooldown callback does consult the live
status mirror, so once status is IDLE its firing changes neither status nor
the recognition capability; an in-flight correction call resolving after
deactivation is however not a no-op: its continuation enters `speak`, which
sets status SPEAKING unconditionally, with no live-mirror check before the
Speaking transition. -/
theorem C2_amended :
    (∀ s : MainSt, (deactivate s).status = AppStatus.IDLE ∧
      (deactivate s).guard = false ∧
      (s.status ≠ AppStatus.IDLE → toggleListening s = deactivate s)) ∧
    (∀ s : SysState, s.status ≠ AppStatus.IDLE → step s Event.toggle =
      { s with guard := false, recRunning := false, status := AppStatus.IDLE }) ∧
    (∀ s : MainSt, s.status = AppStatus.IDLE →
      cooldownCallback s = { s with guard := false }) ∧
    (∀ s : SysState, s.status = AppStatus.IDLE → s.phase = TurnPhase.cooldown →
      (step s Event.cooldownFire).status = AppStatus.IDLE ∧
      (step s Event.cooldownFire).recRunning = s.recRunning) ∧
    (∀ (s : SysState) (t : String) (call : CallResult),
      s.phase = TurnPhase.correcting t →
      (step s (Event.correctionDone call)).status = AppStatus.SPEAKING) := by
  refine ⟨fun s => ⟨rfl, rfl, fun hs => by simp [toggleListening, hs]⟩,
          fun s hs => by simp [step, hs],
          fun s hs => by simp [cooldownCallback, hs],
          fun s hs hp => by simp [step, hp, hs],
          fun s t call hp => by simp [step, hp]⟩

/-- Witness for the amended C2 at concrete states: deactivating from
Processing yields IDLE with the guard clear, the cooldown callback is
status-inert once IDLE, and a pending correction resolution from IDLE moves
status to SPEAKING. -/
theorem C2_witness :
    (deactivate ⟨AppStatus.PROCESSING, true, false, true, none⟩).status =
      AppStatus.IDLE ∧
    cooldownCallback ⟨AppStatus.IDLE, true, false, true, none⟩ =
      ⟨AppStatus.IDLE, false, false, true, none⟩ ∧
    (step ⟨AppStatus.IDLE, false, false, TurnPhase.correcting "hola", none⟩
        (Event.correctionDone CallResult.throws)).status = AppStatus.SPEAKING :=
  ⟨(C2_amended.1 _).1,
   C2_amended.2.2.1 ⟨AppStatus.IDLE, true, false, true, none⟩ rfl,
   C2_amended.2.2.2.2 _ "hola" CallResult.throws rfl⟩

/-- C8: in every state of src/App.tsx reachable from the initial one, the
guard is false whenever status is IDLE, false whenever status is LISTENING
(plain listening carries no turn in flight), and true only while a turn
phase is pending; accepting a transcript sets the guard in that very step,
with the accepted turn entering flight; and a step that releases a set
guard can only be the cooldown expiry or one of the turn-aborting events
(user stop, fatal recognition error, no-audio recovery, playback-error
catch), so the guard stays true from acceptance until cooldown expiry or
turn abort and is false everywhere else. -/
theorem C8_guard_lifecycle :
    (∀ es : List Event, GuardInv (reaches es)) ∧
    (∀ (s : SysState) (t : String), s.recRunning = true → s.guard = false →
      s.status = AppStatus.LISTENING → jsTrim t ≠ "" →
      (step s (Event.recResult t)).guard = true ∧
      (step s (Event.recResult t)).phase = TurnPhase.correcting (jsTrim t)) ∧
    (∀ (s : SysState) (e : Event), GuardInv s → s.guard = true →
      (step s e).guard = false → clearsGuard e = true) := by
  refine ⟨guardInv_reaches, ?_, ?_⟩
  · intro s t hr hg hs ht
    simp [step, hr, hg, hs, ht]
  · intro s e hinv hg hstep
    obtain ⟨h1, h2, h3, h4⟩ := hinv
    cases e with
    | recStart =>
      rw [show step s Event.recStart = s by simp [step, h4 hg]] at hstep
      simp [hg] at hstep
    | recResult t =>
      by_cases hr : s.recRunning = true
      · rw [show step s (Event.recResult t) = s by simp [step, hr, hg]] at hstep
        simp [hg] at hstep
      · simp only [Bool.not_eq_true] at hr
        rw [show step s (Event.recResult t) = s by simp [step, hr]] at hstep
        simp [hg] at hstep
    | recEnd =>
      have hgu : (step s Event.recEnd).guard = s.guard := by
        by_cases hr : s.recRunning = true
        · by_cases hl : s.status = AppStatus.LISTENING ∧ s.guard = false
          · simp [step, hr, hl]
          · simp [step, hr, hl]
        · simp only [Bool.not_eq_true] at hr
          simp [step, hr]
      rw [hgu, hg] at hstep
      exact absurd hstep (by simp)
    | recError code =>
      by_cases hc : code = "no-speech"
      · have hgu : (step s (Event.recError code)).guard = s.guard := by
          by_cases hr : s.recRunning = true
          · simp [step, hr, hc]
          · simp only [Bool.not_eq_true] at hr
            simp [step, hr]
        rw [hgu, hg] at hstep
        exact absurd hstep (by simp)
      · simp [clearsGuard, hc]
    | toggle => simp [clearsGuard]
    | correctionDone call =>
      have hgu : (step s (Event.correctionDone call)).guard = s.guard := by
        cases hp : s.phase <;> simp [step, hp]
      rw [hgu, hg] at hstep
      exact absurd hstep (by simp)
    | synthDone audio =>
      cases audio with
      | none => simp [clearsGuard]
      | some a =>
        have hgu : (step s (Event.synthDone (some a))).guard = s.guard := by
          cases hp : s.phase <;> simp [step, hp]
        rw [hgu, hg] at hstep
        exact absurd hstep (by simp)
    | decodeFail => simp [clearsGuard]
    | playbackEnd =>
      have hgu : (step s Event.playbackEnd).guard = s.guard := by
        cases hp : s.phase <;> simp [step, hp]
      rw [hgu, hg] at hstep
      exact absurd hstep (by simp)
    | cooldownFire => simp [clearsGuard]

/-- Witness for C8 at concrete points: the invariant at a concrete reached
state, the guard set by a concrete acceptance, and a concrete
guard-releasing step named among the releasing events. -/
theorem C8_witness :
    GuardInv (reaches [Event.toggle, Event.recStart]) ∧
    (step ⟨AppStatus.LISTENING, false, true, TurnPhase.noTurn, none⟩
      (Event.recResult "hola")).guard = true ∧
    clearsGuard Event.toggle = true :=
  ⟨C8_guard_lifecycle.1 [Event.toggle, Event.recStart],
   (C8_guard_lifecycle.2.1 _ "hola" rfl rfl rfl (by decide)).1,
   C8_guard_lifecycle.2.2 ⟨AppStatus.PROCESSING, true, false,
      TurnPhase.correcting "hola", none⟩ Event.toggle (by decide) rfl rfl⟩

end VeuPapa
